import Mathlib

/-
Verification of the modal structural components in
src/omfsi/modal_structure_component.py.

The NumPy float arrays of the source are idealized as lists of rationals
(`List ℚ`), with exact arithmetic.  Stateful output buffers become explicit
initial-buffer parameters; the `for imode in range(...)` loops become
`List.foldl` over `List.range`; the OpenMDAO matrix-free seed dictionaries
(`'mf' in d_inputs` etc.) become `Option` parameters; Python exceptions
(the OpenMDAO options dictionary raises a key error when an undeclared
option is read) become `Except` results.
-/

namespace Omfsi

/-- Dot product of two vectors, the model of np.sum(a * b). -/
def dot (a b : List ℚ) : ℚ := (List.zipWith (fun x y => x * y) a b).sum

/-- Elementwise sum, the model of NumPy a + b on same-shape arrays. -/
def vadd (a b : List ℚ) : List ℚ := List.zipWith (fun x y => x + y) a b

/-- Elementwise product, the model of NumPy a * b on same-shape arrays. -/
def vmul (a b : List ℚ) : List ℚ := List.zipWith (fun x y => x * y) a b

/-- Elementwise quotient, the model of NumPy a / b on same-shape arrays
(float division idealized as exact rational division). -/
def vdiv (a b : List ℚ) : List ℚ := List.zipWith (fun x y => x / y) a b

/-- Elementwise negation, the model of NumPy unary minus. -/
def vneg (a : List ℚ) : List ℚ := a.map (fun x => -x)

/-- Vector times scalar, the model of NumPy a * c for scalar c. -/
def vscale (a : List ℚ) (c : ℚ) : List ℚ := a.map (fun x => x * c)

/-- ModalSolver.compute (lines 166-168): outputs z = mf / k elementwise.
The source body is a single vectorized division with no zero-check and no
raise statement, so the model is a total function: no error value exists. -/
def ModalSolver_compute (k mf : List ℚ) : List ℚ := vdiv mf k

/-- ModalSolver.compute_jacvec_product, fwd branch (lines 171-176):
if z is seeded in d_outputs, accumulate d_mf / k and then
-(mf / k**2) * d_k onto the z tangent.  A `none` seed models the key
being absent from the seed dictionary. -/
def ModalSolver_jvp_fwd (k mf : List ℚ) (d_mf d_k : Option (List ℚ))
    (d_z : Option (List ℚ)) : Option (List ℚ) :=
  match d_z with
  | none => none
  | some dz0 =>
    let dz1 := match d_mf with
      | some dmf => vadd dz0 (vdiv dmf k)
      | none => dz0
    let dz2 := match d_k with
      | some dk => vadd dz1 (vmul (vneg (vdiv mf (vmul k k))) dk)
      | none => dz1
    some dz2

/-- ModalSolver.compute_jacvec_product, rev branch (lines 177-182):
if z is seeded in d_outputs, accumulate d_z / k onto the mf adjoint and
-(mf / k**2) * d_z onto the k adjoint; returns the updated
(d_mf, d_k) pair. -/
def ModalSolver_jvp_rev (k mf : List ℚ) (d_mf d_k : Option (List ℚ))
    (d_z : Option (List ℚ)) : Option (List ℚ) × Option (List ℚ) :=
  match d_z with
  | none => (d_mf, d_k)
  | some dz =>
    let d_mf2 := match d_mf with
      | some a => some (vadd a (vdiv dz k))
      | none => none
    let d_k2 := match d_k with
      | some a => some (vadd a (vmul (vneg (vdiv mf (vmul k k))) dz))
      | none => none
    (d_mf2, d_k2)

/-- Value stored in an OpenMDAO options dictionary entry: components here
declare either an integer option (nmodes) or a callback
(get_modal_sizes, get_tacs, get_ndv). -/
inductive OptVal
  | natVal (n : Nat)
  | callback
deriving DecidableEq

/-- The key error raised by the OpenMDAO options dictionary when an
undeclared option name is read. -/
structure KeyErr where
  key : String
deriving DecidableEq

def nmodesKey : String := "nmodes"

def modalSizesKey : String := "get_modal_sizes"

/-- Options declared by ModalSolver.initialize (line 158): nmodes only. -/
def ModalSolver_options (nmodes : Nat) : List (String × OptVal) :=
  [(nmodesKey, OptVal.natVal nmodes)]

/-- Options declared by ModalForces.initialize (line 186):
get_modal_sizes only; nmodes is never declared. -/
def ModalForces_options : List (String × OptVal) :=
  [(modalSizesKey, OptVal.callback)]

/-- Options declared by ModalDisplacements.initialize (line 214):
get_modal_sizes only; nmodes is never declared. -/
def ModalDisplacements_options : List (String × OptVal) :=
  [(modalSizesKey, OptVal.callback)]

/-- Model of reading an integer-valued entry of an OpenMDAO options
dictionary: self.options[key] raises a key error when key was never
declared in initialize. -/
def optGetNat (opts : List (String × OptVal)) (key : String) :
    Except KeyErr Nat :=
  match opts.lookup key with
  | some (OptVal.natVal n) => Except.ok n
  | _ => Except.error ⟨key⟩

/-- ModalForces.compute (lines 195-198): zero the mf output buffer, then
for each imode overwrite mf[imode] with np.sum(mode_shape[imode,:]*f_s). -/
def ModalForces_compute (nmodes : Nat) (mode_shape : List (List ℚ))
    (f_s : List ℚ) (mfInit : List ℚ) : List ℚ :=
  let buf := mfInit.map (fun _ => (0 : ℚ))
  (List.range nmodes).foldl
    (fun b imode => b.set imode (dot (mode_shape.getD imode []) f_s)) buf

/-- ModalForces.compute_jacvec_product, fwd branch (lines 201-205): when
both the mf output seed and the f_s input seed are present, the loop bound
range(self.options[nmodes]) is evaluated first; each iteration accumulates
np.sum(mode_shape[imode,:]*d_f_s) onto d_mf[imode].  Returns the updated
d_mf seed, or the key error the options lookup raises. -/
def ModalForces_jvp_fwd (opts : List (String × OptVal))
    (mode_shape : List (List ℚ)) (d_f_s : Option (List ℚ))
    (d_mf : Option (List ℚ)) : Except KeyErr (Option (List ℚ)) :=
  match d_mf, d_f_s with
  | some dmf, some dfs =>
    match optGetNat opts nmodesKey with
    | Except.ok n =>
      Except.ok (some ((List.range n).foldl
        (fun b imode =>
          b.set imode (b.getD imode 0 + dot (mode_shape.getD imode []) dfs))
        dmf))
    | Except.error e => Except.error e
  | _, _ => Except.ok d_mf

/-- ModalForces.compute_jacvec_product, rev branch (lines 206-210): when
both seeds are present, each iteration of range(self.options[nmodes])
accumulates mode_shape[imode,:]*d_mf[imode] onto the whole d_f_s buffer.
Returns the updated d_f_s seed, or the key error of the options lookup. -/
def ModalForces_jvp_rev (opts : List (String × OptVal))
    (mode_shape : List (List ℚ)) (d_f_s : Option (List ℚ))
    (d_mf : Option (List ℚ)) : Except KeyErr (Option (List ℚ)) :=
  match d_mf, d_f_s with
  | some dmf, some dfs =>
    match optGetNat opts nmodesKey with
    | Except.ok n =>
      Except.ok (some ((List.range n).foldl
        (fun b imode =>
          vadd b (vscale (mode_shape.getD imode []) (dmf.getD imode 0)))
        dfs))
    | Except.error e => Except.error e
  | _, _ => Except.ok d_f_s

/-- ModalDisplacements.compute (lines 223-226): zero the u_s output
buffer, then for each imode accumulate mode_shape[imode,:]*z[imode]
onto the whole buffer. -/
def ModalDisplacements_compute (nmodes : Nat) (mode_shape : List (List ℚ))
    (z : List ℚ) (usInit : List ℚ) : List ℚ :=
  let buf := usInit.map (fun _ => (0 : ℚ))
  (List.range nmodes).foldl
    (fun b imode =>
      vadd b (vscale (mode_shape.getD imode []) (z.getD imode 0))) buf

/-- ModalDisplacements.compute_jacvec_product, fwd branch (lines 229-233):
when both the u_s output seed and the z input seed are present, each
iteration of range(self.options[nmodes]) accumulates
mode_shape[imode,:]*d_z[imode] onto the whole d_u_s buffer. -/
def ModalDisplacements_jvp_fwd (opts : List (String × OptVal))
    (mode_shape : List (List ℚ)) (d_z : Option (List ℚ))
    (d_u_s : Option (List ℚ)) : Except KeyErr (Option (List ℚ)) :=
  match d_u_s, d_z with
  | some dus, some dz =>
    match optGetNat opts nmodesKey with
    | Except.ok n =>
      Except.ok (some ((List.range n).foldl
        (fun b imode =>
          vadd b (vscale (mode_shape.getD imode []) (dz.getD imode 0)))
        dus))
    | Except.error e => Except.error e
  | _, _ => Except.ok d_u_s

/-- ModalDisplacements.compute_jacvec_product, rev branch (lines 234-238):
when both seeds are present, each iteration of range(self.options[nmodes])
accumulates np.sum(mode_shape[imode,:]*d_u_s) onto d_z[imode]. -/
def ModalDisplacements_jvp_rev (opts : List (String × OptVal))
    (mode_shape : List (List ℚ)) (d_z : Option (List ℚ))
    (d_u_s : Option (List ℚ)) : Except KeyErr (Option (List ℚ)) :=
  match d_u_s, d_z with
  | some dus, some dz =>
    match optGetNat opts nmodesKey with
    | Except.ok n =>
      Except.ok (some ((List.range n).foldl
        (fun b imode =>
          b.set imode (b.getD imode 0 + dot (mode_shape.getD imode []) dus))
        dz))
    | Except.error e => Except.error e
  | _, _ => Except.ok d_z

/-- The four outputs of ModalDecomp (lines 107-110). -/
structure ModalBasis where
  x_s0 : List ℚ
  mode_shape : List (List ℚ)
  modal_mass : List ℚ
  modal_stiffness : List ℚ
deriving DecidableEq

/-- The strided scatter of line 140: for idof in 0..2,
mode_shape[imode, idof::3] = vec[idof::ndof].  Entry j = 3*q + idof of the
output row is entry ndof*q + idof of the extracted eigenvector array. -/
def scatterRow (ndof node_size : Nat) (vec : List ℚ) : List ℚ :=
  (List.range node_size).map (fun j => vec.getD (ndof * (j / 3) + j % 3) 0)

/-- ModalDecomp.compute (lines 112-140).  The TACS calls (setDesignVars,
matrix assembly, FrequencyAnalysis.solve) are the external eigensolver;
its results enter through `extract`, the model of
freq.extractEigenvector(imode, vec), giving per mode an eigenvalue, an
integer error indicator and the extracted eigenvector array.  dv_struct
is consumed only by the external tacs.setDesignVars call.  For each mode
the code stores modal_mass = 1.0, modal_stiffness = eig, and the strided
scatter of the eigenvector; the error indicator err is never inspected. -/
def ModalDecomp_compute (dv_struct : List ℚ) (nmodes ndof : Nat)
    (xpts : List ℚ) (extract : Nat → ℚ × ℤ × List ℚ) : ModalBasis :=
  { x_s0 := xpts
    mode_shape := (List.range nmodes).map
      (fun imode => scatterRow ndof xpts.length (extract imode).2.2)
    modal_mass := (List.range nmodes).map (fun _ => 1)
    modal_stiffness := (List.range nmodes).map (fun imode => (extract imode).1) }

/-- The composed chain of section 8 of the spec: project the nodal force,
solve the diagonal modal system, reconstruct nodal displacement.  Fresh
zero output buffers of the OpenMDAO-declared shapes are used. -/
def modalChain (nmodes m : Nat) (mode_shape : List (List ℚ))
    (k f_s : List ℚ) : List ℚ :=
  ModalDisplacements_compute nmodes mode_shape
    (ModalSolver_compute k
      (ModalForces_compute nmodes mode_shape f_s (List.replicate nmodes 0)))
    (List.replicate m 0)

/-! Helper lemmas about getD, zipWith, map, set and the loop folds. -/

lemma getD_nil (j : Nat) : ([] : List ℚ).getD j 0 = 0 := by
  cases j <;> rfl

lemma zipWith_getD (f : ℚ → ℚ → ℚ) (hf : f 0 0 = 0) :
    ∀ (a b : List ℚ), a.length = b.length → ∀ (j : Nat),
      (List.zipWith f a b).getD j 0 = f (a.getD j 0) (b.getD j 0) := by
  intro a
  induction a with
  | nil =>
    intro b h j
    cases b with
    | nil => simpa [getD_nil] using hf.symm
    | cons y ys => simp at h
  | cons x xs ih =>
    intro b h j
    cases b with
    | nil => simp at h
    | cons y ys =>
      cases j with
      | zero => simp
      | succ j =>
        have h2 : xs.length = ys.length := by simpa using h
        simpa using ih ys h2 j

lemma getD_map_zero : ∀ (l : List ℚ) (j : Nat),
    (l.map (fun _ => (0 : ℚ))).getD j 0 = 0 := by
  intro l
  induction l with
  | nil => intro j; simpa using getD_nil j
  | cons x xs ih =>
    intro j
    cases j with
    | zero => rfl
    | succ j => simpa using ih j

lemma vscale_getD (c : ℚ) : ∀ (l : List ℚ) (j : Nat),
    (vscale l c).getD j 0 = l.getD j 0 * c := by
  intro l
  induction l with
  | nil => intro j; simp [vscale, getD_nil]
  | cons x xs ih =>
    intro j
    cases j with
    | zero => rfl
    | succ j => simpa [vscale] using ih j

lemma vneg_getD : ∀ (l : List ℚ) (j : Nat),
    (vneg l).getD j 0 = -(l.getD j 0) := by
  intro l
  induction l with
  | nil => intro j; simp [vneg, getD_nil]
  | cons x xs ih =>
    intro j
    cases j with
    | zero => rfl
    | succ j => simpa [vneg] using ih j

lemma getD_replicate_zero : ∀ (n j : Nat),
    (List.replicate n (0 : ℚ)).getD j 0 = 0 := by
  intro n
  induction n with
  | zero => intro j; simpa using getD_nil j
  | succ n ih =>
    intro j
    cases j with
    | zero => rfl
    | succ j => simpa [List.replicate] using ih j

lemma getD_set : ∀ (l : List ℚ) (i : Nat) (v : ℚ) (j : Nat),
    (l.set i v).getD j 0 = if i = j ∧ j < l.length then v else l.getD j 0 := by
  intro l
  induction l with
  | nil => intro i v j; simp
  | cons x xs ih =>
    intro i v j
    cases i with
    | zero =>
      cases j with
      | zero => simp
      | succ j => simp
    | succ i =>
      cases j with
      | zero => simp
      | succ j =>
        have := ih i v j
        simp only [List.set_cons_succ, List.getD_cons_succ, List.length_cons]
        rw [this]
        by_cases h : i = j ∧ j < xs.length
        · rw [if_pos h, if_pos ⟨by omega, by omega⟩]
        · rw [if_neg h, if_neg (by omega)]

lemma foldl_step_length (step : List ℚ → Nat → List ℚ)
    (hs : ∀ b i, (step b i).length = b.length) :
    ∀ (l : List Nat) (buf : List ℚ), (l.foldl step buf).length = buf.length := by
  intro l
  induction l with
  | nil => intro buf; rfl
  | cons i l ih => intro buf; rw [List.foldl_cons, ih, hs]

lemma foldl_set_getD (g : Nat → ℚ) :
    ∀ (n : Nat) (buf : List ℚ), n ≤ buf.length → ∀ (j : Nat),
      ((List.range n).foldl (fun b i => b.set i (g i)) buf).getD j 0
        = if j < n then g j else buf.getD j 0 := by
  intro n
  induction n with
  | zero => intro buf h j; simp
  | succ n ih =>
    intro buf h j
    rw [List.range_succ, List.foldl_append, List.foldl_cons, List.foldl_nil]
    have hlen : ((List.range n).foldl (fun b i => b.set i (g i)) buf).length
        = buf.length :=
      foldl_step_length _ (fun b i => List.length_set b i (g i)) _ _
    rw [getD_set, hlen, ih buf (by omega) j]
    by_cases hnj : n = j
    · subst hnj
      rw [if_pos ⟨rfl, by omega⟩, if_pos (by omega)]
    · rw [if_neg (by omega)]
      by_cases hj : j < n
      · rw [if_pos hj, if_pos (by omega)]
      · rw [if_neg hj, if_neg (by omega)]

lemma foldl_accum_getD (g : Nat → ℚ) :
    ∀ (n : Nat) (buf : List ℚ), n ≤ buf.length → ∀ (j : Nat),
      ((List.range n).foldl (fun b i => b.set i (b.getD i 0 + g i)) buf).getD j 0
        = if j < n then buf.getD j 0 + g j else buf.getD j 0 := by
  intro n
  induction n with
  | zero => intro buf h j; simp
  | succ n ih =>
    intro buf h j
    rw [List.range_succ, List.foldl_append, List.foldl_cons, List.foldl_nil]
    have hlen : ((List.range n).foldl
        (fun b i => b.set i (b.getD i 0 + g i)) buf).length = buf.length :=
      foldl_step_length _ (fun b i => List.length_set b i _) _ _
    rw [getD_set, hlen]
    have hn : ((List.range n).foldl
        (fun b i => b.set i (b.getD i 0 + g i)) buf).getD n 0 = buf.getD n 0 := by
      rw [ih buf (by omega) n, if_neg (by omega)]
    rw [hn, ih buf (by omega) j]
    by_cases hnj : n = j
    · subst hnj
      rw [if_pos ⟨rfl, by omega⟩, if_pos (by omega)]
    · rw [if_neg (by omega)]
      by_cases hj : j < n
      · rw [if_pos hj, if_pos (by omega)]
      · rw [if_neg hj, if_neg (by omega)]

lemma foldl_vadd_length (w : Nat → List ℚ) (m : Nat) :
    ∀ (n : Nat) (buf : List ℚ), buf.length = m →
      (∀ i, i < n → (w i).length = m) →
      ((List.range n).foldl (fun b i => vadd b (w i)) buf).length = m := by
  intro n
  induction n with
  | zero => intro buf hb hw; simpa using hb
  | succ n ih =>
    intro buf hb hw
    rw [List.range_succ, List.foldl_append, List.foldl_cons, List.foldl_nil]
    have h1 : ((List.range n).foldl (fun b i => vadd b (w i)) buf).length = m :=
      ih buf hb (fun i hi => hw i (by omega))
    rw [vadd, List.length_zipWith, h1, hw n (by omega)]
    omega

lemma foldl_vadd_getD (w : Nat → List ℚ) (m : Nat) :
    ∀ (n : Nat) (buf : List ℚ), buf.length = m →
      (∀ i, i < n → (w i).length = m) → ∀ (j : Nat),
      ((List.range n).foldl (fun b i => vadd b (w i)) buf).getD j 0
        = buf.getD j 0 + ∑ i in Finset.range n, (w i).getD j 0 := by
  intro n
  induction n with
  | zero => intro buf hb hw j; simp
  | succ n ih =>
    intro buf hb hw j
    rw [List.range_succ, List.foldl_append, List.foldl_cons, List.foldl_nil]
    have h1 : ((List.range n).foldl (fun b i => vadd b (w i)) buf).length = m :=
      foldl_vadd_length w m n buf hb (fun i hi => hw i (by omega))
    rw [vadd, zipWith_getD (fun x y => x + y) (by norm_num) _ _
        (by rw [h1, hw n (by omega)]) j]
    rw [ih buf hb (fun i hi => hw i (by omega)) j, Finset.sum_range_succ]
    ring

lemma dot_eq_sum : ∀ (a b : List ℚ), a.length = b.length →
    dot a b = ∑ j in Finset.range a.length, a.getD j 0 * b.getD j 0 := by
  intro a
  induction a with
  | nil => intro b h; simp [dot]
  | cons x xs ih =>
    intro b h
    cases b with
    | nil => simp at h
    | cons y ys =>
      have h2 : xs.length = ys.length := by simpa using h
      have hd : dot (x :: xs) (y :: ys) = x * y + dot xs ys := by
        simp [dot]
      rw [hd, ih ys h2, List.length_cons, Finset.sum_range_succ']
      simp [add_comm]

lemma dot_length_eq {a b : List ℚ} {n : Nat} (ha : a.length = n)
    (hb : b.length = n) :
    dot a b = ∑ j in Finset.range n, a.getD j 0 * b.getD j 0 := by
  rw [dot_eq_sum a b (by omega), ha]

lemma dot_vscale : ∀ (a b : List ℚ) (c : ℚ),
    dot a (vscale b c) = dot a b * c := by
  intro a
  induction a with
  | nil => intro b c; simp [dot]
  | cons x xs ih =>
    intro b c
    cases b with
    | nil => simp [dot, vscale]
    | cons y ys =>
      have h1 : dot (x :: xs) (vscale (y :: ys) c)
          = x * (y * c) + dot xs (vscale ys c) := by
        simp [dot, vscale]
      have h2 : dot (x :: xs) (y :: ys) = x * y + dot xs ys := by
        simp [dot]
      rw [h1, h2, ih ys c]
      ring

lemma ext_getD : ∀ (l1 l2 : List ℚ), l1.length = l2.length →
    (∀ j, j < l1.length → l1.getD j 0 = l2.getD j 0) → l1 = l2 := by
  intro l1
  induction l1 with
  | nil =>
    intro l2 h hp
    cases l2 with
    | nil => rfl
    | cons y ys => simp at h
  | cons x xs ih =>
    intro l2 h hp
    cases l2 with
    | nil => simp at h
    | cons y ys =>
      have hx : x = y := by simpa using hp 0 (by simp)
      have hxs : xs = ys := by
        refine ih ys (by simpa using h) (fun j hj => ?_)
        simpa using hp (j + 1) (by simpa using Nat.succ_lt_succ hj)
      rw [hx, hxs]

lemma vneg_length (a : List ℚ) : (vneg a).length = a.length := by
  simp [vneg]

lemma vscale_length (a : List ℚ) (c : ℚ) : (vscale a c).length = a.length := by
  simp [vscale]

lemma vadd_getD (a b : List ℚ) (h : a.length = b.length) (j : Nat) :
    (vadd a b).getD j 0 = a.getD j 0 + b.getD j 0 :=
  zipWith_getD _ (by norm_num) a b h j

lemma vmul_getD (a b : List ℚ) (h : a.length = b.length) (j : Nat) :
    (vmul a b).getD j 0 = a.getD j 0 * b.getD j 0 :=
  zipWith_getD _ (by norm_num) a b h j

lemma vdiv_getD (a b : List ℚ) (h : a.length = b.length) (j : Nat) :
    (vdiv a b).getD j 0 = a.getD j 0 / b.getD j 0 :=
  zipWith_getD _ (by norm_num) a b h j

/-! Pointwise descriptions of each component operation. -/

lemma ModalForces_compute_length (nmodes : Nat) (ms : List (List ℚ))
    (fs mfInit : List ℚ) (hmf : mfInit.length = nmodes) :
    (ModalForces_compute nmodes ms fs mfInit).length = nmodes := by
  unfold ModalForces_compute
  rw [foldl_step_length _ (fun b i => List.length_set b i _), List.length_map,
    hmf]

lemma ModalForces_compute_getD (nmodes : Nat) (ms : List (List ℚ))
    (fs mfInit : List ℚ) (hmf : mfInit.length = nmodes) (j : Nat) :
    (ModalForces_compute nmodes ms fs mfInit).getD j 0
      = if j < nmodes then dot (ms.getD j []) fs else 0 := by
  unfold ModalForces_compute
  rw [foldl_set_getD (fun i => dot (ms.getD i []) fs) nmodes _
    (by rw [List.length_map, hmf]) j]
  by_cases hj : j < nmodes
  · rw [if_pos hj, if_pos hj]
  · rw [if_neg hj, if_neg hj, getD_map_zero]

lemma ModalDisplacements_compute_length (nmodes m : Nat)
    (ms : List (List ℚ)) (z usInit : List ℚ) (hus : usInit.length = m)
    (hrows : ∀ i, i < nmodes → (ms.getD i []).length = m) :
    (ModalDisplacements_compute nmodes ms z usInit).length = m := by
  unfold ModalDisplacements_compute
  exact foldl_vadd_length _ m nmodes _ (by rw [List.length_map, hus])
    (fun i hi => by rw [vscale_length, hrows i hi])

lemma ModalDisplacements_compute_getD (nmodes m : Nat)
    (ms : List (List ℚ)) (z usInit : List ℚ) (hus : usInit.length = m)
    (hrows : ∀ i, i < nmodes → (ms.getD i []).length = m) (j : Nat) :
    (ModalDisplacements_compute nmodes ms z usInit).getD j 0
      = ∑ i in Finset.range nmodes, (ms.getD i []).getD j 0 * z.getD i 0 := by
  unfold ModalDisplacements_compute
  rw [foldl_vadd_getD _ m nmodes _ (by rw [List.length_map, hus])
    (fun i hi => by rw [vscale_length, hrows i hi]) j, getD_map_zero, zero_add]
  exact Finset.sum_congr rfl (fun i _ => vscale_getD _ _ _)

/-- Swapping the two nested sums of the Galerkin projection and its
transpose: sum over modes of (row i · u) v i equals sum over nodes of
u j times the transposed image of v. -/
lemma sum_swap_core (n m : Nat) (ms : List (List ℚ)) (u v : List ℚ)
    (hrows : ∀ i, i < n → (ms.getD i []).length = m) (hu : u.length = m) :
    ∑ i in Finset.range n, dot (ms.getD i []) u * v.getD i 0
      = ∑ j in Finset.range m,
          u.getD j 0 * ∑ i in Finset.range n,
            (ms.getD i []).getD j 0 * v.getD i 0 := by
  have h1 : ∀ i ∈ Finset.range n, dot (ms.getD i []) u * v.getD i 0
      = ∑ j in Finset.range m,
          (ms.getD i []).getD j 0 * u.getD j 0 * v.getD i 0 := by
    intro i hi
    rw [dot_length_eq (hrows i (Finset.mem_range.mp hi)) hu, Finset.sum_mul]
  rw [Finset.sum_congr rfl h1, Finset.sum_comm]
  refine Finset.sum_congr rfl (fun j _ => ?_)
  rw [Finset.mul_sum]
  exact Finset.sum_congr rfl (fun i _ => by ring)

lemma ModalSolver_jvp_fwd_getD (n : Nat) (k mf dmf dk dz0 : List ℚ)
    (hk : k.length = n) (hmf : mf.length = n) (hdmf : dmf.length = n)
    (hdk : dk.length = n) (hdz : dz0.length = n) (i : Nat) :
    ((ModalSolver_jvp_fwd k mf (some dmf) (some dk) (some dz0)).getD []).getD i 0
      = dz0.getD i 0 + dmf.getD i 0 / k.getD i 0
        + -(mf.getD i 0 / (k.getD i 0 * k.getD i 0)) * dk.getD i 0 := by
  have l1 : (vdiv dmf k).length = n := by rw [vdiv, List.length_zipWith]; omega
  have l2 : (vadd dz0 (vdiv dmf k)).length = n := by
    rw [vadd, List.length_zipWith]; omega
  have l3 : (vmul k k).length = n := by rw [vmul, List.length_zipWith]; omega
  have l4 : (vdiv mf (vmul k k)).length = n := by
    rw [vdiv, List.length_zipWith]; omega
  have l5 : (vneg (vdiv mf (vmul k k))).length = n := by rw [vneg_length]; omega
  have l6 : (vmul (vneg (vdiv mf (vmul k k))) dk).length = n := by
    rw [vmul, List.length_zipWith]; omega
  show (vadd (vadd dz0 (vdiv dmf k))
    (vmul (vneg (vdiv mf (vmul k k))) dk)).getD i 0 = _
  rw [vadd_getD _ _ (by omega) i, vadd_getD _ _ (by omega) i,
    vdiv_getD _ _ (by omega) i, vmul_getD _ _ (by omega) i, vneg_getD,
    vdiv_getD _ _ (by omega) i, vmul_getD _ _ (by omega) i]

lemma ModalSolver_jvp_rev_fst_getD (n : Nat) (k mf a1 a2 dz : List ℚ)
    (hk : k.length = n) (ha1 : a1.length = n) (hdz : dz.length = n) (i : Nat) :
    (((ModalSolver_jvp_rev k mf (some a1) (some a2) (some dz)).1).getD []).getD i 0
      = a1.getD i 0 + dz.getD i 0 / k.getD i 0 := by
  show (vadd a1 (vdiv dz k)).getD i 0 = _
  have l1 : (vdiv dz k).length = n := by rw [vdiv, List.length_zipWith]; omega
  rw [vadd_getD _ _ (by omega) i, vdiv_getD _ _ (by omega) i]

lemma ModalSolver_jvp_rev_snd_getD (n : Nat) (k mf a1 a2 dz : List ℚ)
    (hk : k.length = n) (hmf : mf.length = n) (ha2 : a2.length = n)
    (hdz : dz.length = n) (i : Nat) :
    (((ModalSolver_jvp_rev k mf (some a1) (some a2) (some dz)).2).getD []).getD i 0
      = a2.getD i 0 + -(mf.getD i 0 / (k.getD i 0 * k.getD i 0)) * dz.getD i 0 := by
  show (vadd a2 (vmul (vneg (vdiv mf (vmul k k))) dz)).getD i 0 = _
  have l3 : (vmul k k).length = n := by rw [vmul, List.length_zipWith]; omega
  have l4 : (vdiv mf (vmul k k)).length = n := by
    rw [vdiv, List.length_zipWith]; omega
  have l5 : (vneg (vdiv mf (vmul k k))).length = n := by rw [vneg_length]; omega
  have l6 : (vmul (vneg (vdiv mf (vmul k k))) dz).length = n := by
    rw [vmul, List.length_zipWith]; omega
  rw [vadd_getD _ _ (by omega) i, vmul_getD _ _ (by omega) i, vneg_getD,
    vdiv_getD _ _ (by omega) i, vmul_getD _ _ (by omega) i]

/-- An options dictionary ModalForces would need for its jacvec loops:
the declared get_modal_sizes entry plus an nmodes entry. -/
def ModalForces_options_fixed (nmodes : Nat) : List (String × OptVal) :=
  [(modalSizesKey, OptVal.callback), (nmodesKey, OptVal.natVal nmodes)]

/-- An options dictionary ModalDisplacements would need for its jacvec
loops: the declared get_modal_sizes entry plus an nmodes entry. -/
def ModalDisplacements_options_fixed (nmodes : Nat) : List (String × OptVal) :=
  [(modalSizesKey, OptVal.callback), (nmodesKey, OptVal.natVal nmodes)]

/-- Extraction of a successfully updated seed from a jacvec call. -/
def jvpOut (e : Except KeyErr (Option (List ℚ))) : List ℚ :=
  match e with
  | Except.ok (some l) => l
  | _ => []

lemma ModalForces_jvp_fwd_fixed_out (n : Nat) (ms : List (List ℚ))
    (dfs dmf : List ℚ) :
    jvpOut (ModalForces_jvp_fwd (ModalForces_options_fixed n) ms
        (some dfs) (some dmf))
      = (List.range n).foldl
          (fun b i => b.set i (b.getD i 0 + dot (ms.getD i []) dfs)) dmf := rfl

lemma ModalForces_jvp_rev_fixed_out (n : Nat) (ms : List (List ℚ))
    (dfs dmf : List ℚ) :
    jvpOut (ModalForces_jvp_rev (ModalForces_options_fixed n) ms
        (some dfs) (some dmf))
      = (List.range n).foldl
          (fun b i => vadd b (vscale (ms.getD i []) (dmf.getD i 0))) dfs := rfl

lemma ModalDisplacements_jvp_fwd_fixed_out (n : Nat) (ms : List (List ℚ))
    (dz dus : List ℚ) :
    jvpOut (ModalDisplacements_jvp_fwd (ModalDisplacements_options_fixed n) ms
        (some dz) (some dus))
      = (List.range n).foldl
          (fun b i => vadd b (vscale (ms.getD i []) (dz.getD i 0))) dus := rfl

lemma ModalDisplacements_jvp_rev_fixed_out (n : Nat) (ms : List (List ℚ))
    (dz dus : List ℚ) :
    jvpOut (ModalDisplacements_jvp_rev (ModalDisplacements_options_fixed n) ms
        (some dz) (some dus))
      = (List.range n).foldl
          (fun b i => b.set i (b.getD i 0 + dot (ms.getD i []) dus)) dz := rfl

lemma ModalSolver_jvp_fwd_len (n : Nat) (k mf dmf dk dz0 : List ℚ)
    (hk : k.length = n) (hmf : mf.length = n) (hdmf : dmf.length = n)
    (hdk : dk.length = n) (hdz : dz0.length = n) :
    ((ModalSolver_jvp_fwd k mf (some dmf) (some dk) (some dz0)).getD []).length
      = n := by
  show (vadd (vadd dz0 (vdiv dmf k))
    (vmul (vneg (vdiv mf (vmul k k))) dk)).length = n
  simp [vadd, vmul, vdiv, vneg, List.length_zipWith, hk, hmf, hdmf, hdk, hdz]

lemma ModalSolver_jvp_rev_fst_len (n : Nat) (k mf a1 a2 dz : List ℚ)
    (hk : k.length = n) (ha1 : a1.length = n) (hdz : dz.length = n) :
    (((ModalSolver_jvp_rev k mf (some a1) (some a2) (some dz)).1).getD []).length
      = n := by
  show (vadd a1 (vdiv dz k)).length = n
  simp [vadd, vdiv, List.length_zipWith, hk, ha1, hdz]

lemma ModalSolver_jvp_rev_snd_len (n : Nat) (k mf a1 a2 dz : List ℚ)
    (hk : k.length = n) (hmf : mf.length = n) (ha2 : a2.length = n)
    (hdz : dz.length = n) :
    (((ModalSolver_jvp_rev k mf (some a1) (some a2) (some dz)).2).getD []).length
      = n := by
  show (vadd a2 (vmul (vneg (vdiv mf (vmul k k))) dz)).length = n
  simp [vadd, vmul, vdiv, vneg, List.length_zipWith, hk, hmf, ha2, hdz]

/-- Dot-product identity of the modal solver jacvec rules: with zero
initial accumulators, the tangent of z paired with the z adjoint seed
equals the tangent seeds paired with the back-propagated adjoints. -/
lemma solver_identity (n : Nat) (k mf dmf dk oz : List ℚ)
    (hk : k.length = n) (hmf : mf.length = n) (hdmf : dmf.length = n)
    (hdk : dk.length = n) (hoz : oz.length = n) :
    dot ((ModalSolver_jvp_fwd k mf (some dmf) (some dk)
        (some (List.replicate n 0))).getD []) oz
      = dot dmf (((ModalSolver_jvp_rev k mf (some (List.replicate n 0))
          (some (List.replicate n 0)) (some oz)).1).getD [])
        + dot dk (((ModalSolver_jvp_rev k mf (some (List.replicate n 0))
          (some (List.replicate n 0)) (some oz)).2).getD []) := by
  have hrep : (List.replicate n (0 : ℚ)).length = n := List.length_replicate n 0
  rw [dot_length_eq
    (ModalSolver_jvp_fwd_len n k mf dmf dk _ hk hmf hdmf hdk hrep) hoz]
  rw [dot_length_eq hdmf (ModalSolver_jvp_rev_fst_len n k mf _ _ oz hk hrep hoz)]
  rw [dot_length_eq hdk
    (ModalSolver_jvp_rev_snd_len n k mf _ _ oz hk hmf hrep hoz)]
  rw [← Finset.sum_add_distrib]
  refine Finset.sum_congr rfl (fun i hi => ?_)
  rw [ModalSolver_jvp_fwd_getD n k mf dmf dk _ hk hmf hdmf hdk hrep i,
    ModalSolver_jvp_rev_fst_getD n k mf _ _ oz hk hrep hoz i,
    ModalSolver_jvp_rev_snd_getD n k mf _ _ oz hk hmf hrep hoz i,
    getD_replicate_zero]
  ring

/-- Dot-product identity of the force-projection jacvec rules, run with an
options dictionary that does declare nmodes. -/
lemma forces_identity (n m : Nat) (ms : List (List ℚ)) (dfs omf : List ℚ)
    (hrows : ∀ i, i < n → (ms.getD i []).length = m)
    (hdfs : dfs.length = m) (homf : omf.length = n) :
    dot (jvpOut (ModalForces_jvp_fwd (ModalForces_options_fixed n) ms
        (some dfs) (some (List.replicate n 0)))) omf
      = dot dfs (jvpOut (ModalForces_jvp_rev (ModalForces_options_fixed n) ms
          (some (List.replicate m 0)) (some omf))) := by
  rw [ModalForces_jvp_fwd_fixed_out, ModalForces_jvp_rev_fixed_out]
  have hrep : (List.replicate n (0 : ℚ)).length = n := List.length_replicate n 0
  have hrepm : (List.replicate m (0 : ℚ)).length = m := List.length_replicate m 0
  have hlen1 : ((List.range n).foldl
      (fun b i => b.set i (b.getD i 0 + dot (ms.getD i []) dfs))
      (List.replicate n 0)).length = n := by
    rw [foldl_step_length _ (fun b i => List.length_set b i _), hrep]
  have hlen2 : ((List.range n).foldl
      (fun b i => vadd b (vscale (ms.getD i []) (omf.getD i 0)))
      (List.replicate m 0)).length = m :=
    foldl_vadd_length _ m n _ hrepm
      (fun i hi => by rw [vscale_length, hrows i hi])
  rw [dot_length_eq hlen1 homf, dot_length_eq hdfs hlen2]
  have h1 : ∀ i ∈ Finset.range n,
      ((List.range n).foldl
        (fun b i => b.set i (b.getD i 0 + dot (ms.getD i []) dfs))
        (List.replicate n 0)).getD i 0 * omf.getD i 0
      = dot (ms.getD i []) dfs * omf.getD i 0 := by
    intro i hi
    rw [foldl_accum_getD _ n _ (by rw [hrep]) i,
      if_pos (Finset.mem_range.mp hi), getD_replicate_zero, zero_add]
  have h2 : ∀ j ∈ Finset.range m,
      dfs.getD j 0 * ((List.range n).foldl
        (fun b i => vadd b (vscale (ms.getD i []) (omf.getD i 0)))
        (List.replicate m 0)).getD j 0
      = dfs.getD j 0 * ∑ i in Finset.range n,
          (ms.getD i []).getD j 0 * omf.getD i 0 := by
    intro j hj
    rw [foldl_vadd_getD _ m n _ hrepm
      (fun i hi => by rw [vscale_length, hrows i hi]) j,
      getD_replicate_zero, zero_add]
    refine congrArg _ (Finset.sum_congr rfl (fun i _ => vscale_getD _ _ _))
  rw [Finset.sum_congr rfl h1, Finset.sum_congr rfl h2]
  exact sum_swap_core n m ms dfs omf hrows hdfs

/-- Dot-product identity of the displacement-reconstruction jacvec rules,
run with an options dictionary that does declare nmodes. -/
lemma disps_identity (n m : Nat) (ms : List (List ℚ)) (dz ous : List ℚ)
    (hrows : ∀ i, i < n → (ms.getD i []).length = m)
    (hdz : dz.length = n) (hous : ous.length = m) :
    dot (jvpOut (ModalDisplacements_jvp_fwd
        (ModalDisplacements_options_fixed n) ms
        (some dz) (some (List.replicate m 0)))) ous
      = dot dz (jvpOut (ModalDisplacements_jvp_rev
          (ModalDisplacements_options_fixed n) ms
          (some (List.replicate n 0)) (some ous))) := by
  rw [ModalDisplacements_jvp_fwd_fixed_out, ModalDisplacements_jvp_rev_fixed_out]
  have hrep : (List.replicate n (0 : ℚ)).length = n := List.length_replicate n 0
  have hrepm : (List.replicate m (0 : ℚ)).length = m := List.length_replicate m 0
  have hlen1 : ((List.range n).foldl
      (fun b i => vadd b (vscale (ms.getD i []) (dz.getD i 0)))
      (List.replicate m 0)).length = m :=
    foldl_vadd_length _ m n _ hrepm
      (fun i hi => by rw [vscale_length, hrows i hi])
  have hlen2 : ((List.range n).foldl
      (fun b i => b.set i (b.getD i 0 + dot (ms.getD i []) ous))
      (List.replicate n 0)).length = n := by
    rw [foldl_step_length _ (fun b i => List.length_set b i _), hrep]
  rw [dot_length_eq hlen1 hous, dot_length_eq hdz hlen2]
  have h1 : ∀ j ∈ Finset.range m,
      ((List.range n).foldl
        (fun b i => vadd b (vscale (ms.getD i []) (dz.getD i 0)))
        (List.replicate m 0)).getD j 0 * ous.getD j 0
      = ous.getD j 0 * ∑ i in Finset.range n,
          (ms.getD i []).getD j 0 * dz.getD i 0 := by
    intro j hj
    rw [foldl_vadd_getD _ m n _ hrepm
      (fun i hi => by rw [vscale_length, hrows i hi]) j,
      getD_replicate_zero, zero_add]
    rw [Finset.sum_congr rfl (fun i _ => vscale_getD _ _ _)]
    ring
  have h2 : ∀ i ∈ Finset.range n,
      dz.getD i 0 * ((List.range n).foldl
        (fun b i => b.set i (b.getD i 0 + dot (ms.getD i []) ous))
        (List.replicate n 0)).getD i 0
      = dot (ms.getD i []) ous * dz.getD i 0 := by
    intro i hi
    rw [foldl_accum_getD _ n _ (by rw [hrep]) i,
      if_pos (Finset.mem_range.mp hi), getD_replicate_zero, zero_add]
    ring
  rw [Finset.sum_congr rfl h1, Finset.sum_congr rfl h2]
  exact (sum_swap_core n m ms ous dz hrows hous).symm

/-- Mock eigensolver extraction whose error indicator is 1 (failed
eigenpair) for every mode, with eigenvalue 2 and eigenvector [3]. -/
def extractA : Nat → ℚ × ℤ × List ℚ := fun _ => (2, 1, [3])

/-- Same eigenpairs as extractA but with error indicator 0. -/
def extractB : Nat → ℚ × ℤ × List ℚ := fun _ => (2, 0, [3])

/-! Claim theorems. -/

/-- C5: for every stiffness vector k with all entries nonzero and modal
force vector mf of the same length, ModalSolver.compute returns z of that
length with z[i] = mf[i] / k[i]; a negative k[i] is accepted (the function
is total, no error) and yields z[i] of sign opposite to mf[i]. -/
theorem C5_solver_division (n : Nat) (k mf : List ℚ)
    (hk : k.length = n) (hmf : mf.length = n)
    (hknz : ∀ i, i < n → k.getD i 0 ≠ 0) :
    (ModalSolver_compute k mf).length = n ∧
    (∀ i, i < n →
      (ModalSolver_compute k mf).getD i 0 = mf.getD i 0 / k.getD i 0) ∧
    (∀ i, i < n → k.getD i 0 < 0 → mf.getD i 0 ≠ 0 →
      (ModalSolver_compute k mf).getD i 0 * mf.getD i 0 < 0) := by
  have hgd : ∀ i, (ModalSolver_compute k mf).getD i 0
      = mf.getD i 0 / k.getD i 0 := fun i => vdiv_getD mf k (by omega) i
  refine ⟨by rw [ModalSolver_compute, vdiv, List.length_zipWith]; omega,
    fun i _ => hgd i, fun i hi hklt hmfne => ?_⟩
  rw [hgd i, div_mul_eq_mul_div]
  exact div_neg_of_pos_of_neg (mul_self_pos.mpr hmfne) hklt

/-- Witness for C5 at k = [-2], mf = [4]: the solver output times the
modal force is negative. -/
theorem C5_witness :
    (ModalSolver_compute [-2] [4]).getD 0 0 * (4 : ℚ) < 0 := by
  refine (C5_solver_division 1 [-2] [4] rfl rfl ?_).2.2 0 (by omega) ?_ ?_
  · intro i hi
    interval_cases i
    norm_num
  · norm_num
  · norm_num

/-- C6: ModalForces.compute returns mf of length nmodes with
mf[i] equal to the sum over j of mode_shape[i,j] * f_s[j], and the result
does not depend on the prior contents of the output buffer. -/
theorem C6_force_projection (nmodes m : Nat) (mode_shape : List (List ℚ))
    (f_s mfInit mfInit2 : List ℚ)
    (hrows : ∀ i, i < nmodes → (mode_shape.getD i []).length = m)
    (hfs : f_s.length = m)
    (hmf : mfInit.length = nmodes) (hmf2 : mfInit2.length = nmodes) :
    (ModalForces_compute nmodes mode_shape f_s mfInit).length = nmodes ∧
    (∀ i, i < nmodes →
      (ModalForces_compute nmodes mode_shape f_s mfInit).getD i 0
        = ∑ j in Finset.range m,
            (mode_shape.getD i []).getD j 0 * f_s.getD j 0) ∧
    ModalForces_compute nmodes mode_shape f_s mfInit
      = ModalForces_compute nmodes mode_shape f_s mfInit2 := by
  refine ⟨ModalForces_compute_length _ _ _ _ hmf, fun i hi => ?_, ?_⟩
  · rw [ModalForces_compute_getD _ _ _ _ hmf i, if_pos hi,
      dot_length_eq (hrows i hi) hfs]
  · refine ext_getD _ _ ?_ (fun j hj => ?_)
    · rw [ModalForces_compute_length _ _ _ _ hmf,
        ModalForces_compute_length _ _ _ _ hmf2]
    · rw [ModalForces_compute_getD _ _ _ _ hmf j,
        ModalForces_compute_getD _ _ _ _ hmf2 j]

/-- Witness for C6: with mode_shape [[1,2]] and f_s [3,4], the projection
computed into a buffer holding [9] equals the one computed into [7]. -/
theorem C6_witness :
    ModalForces_compute 1 [[1, 2]] [3, 4] [9]
      = ModalForces_compute 1 [[1, 2]] [3, 4] [7] := by
  refine (C6_force_projection 1 2 [[1, 2]] [3, 4] [9] [7] ?_ rfl rfl rfl).2.2
  intro i hi
  interval_cases i
  rfl

/-- C7: ModalDisplacements.compute returns u_s of the nodal length with
u_s[j] equal to the sum over i of mode_shape[i,j] * z[i]; moreover it is
the exact transpose of ModalForces.compute on the identical mode_shape
data: the dot-product transpose identity holds between the two. -/
theorem C7_displacement_reconstruction (nmodes m : Nat)
    (mode_shape : List (List ℚ)) (z usInit : List ℚ)
    (hrows : ∀ i, i < nmodes → (mode_shape.getD i []).length = m)
    (hz : z.length = nmodes) (hus : usInit.length = m) :
    (ModalDisplacements_compute nmodes mode_shape z usInit).length = m ∧
    (∀ j, j < m →
      (ModalDisplacements_compute nmodes mode_shape z usInit).getD j 0
        = ∑ i in Finset.range nmodes,
            (mode_shape.getD i []).getD j 0 * z.getD i 0) ∧
    (∀ f_s mfInit : List ℚ, f_s.length = m → mfInit.length = nmodes →
      dot (ModalForces_compute nmodes mode_shape f_s mfInit) z
        = dot f_s (ModalDisplacements_compute nmodes mode_shape z usInit)) := by
  refine ⟨ModalDisplacements_compute_length nmodes m _ z _ hus hrows,
    fun j hj => ModalDisplacements_compute_getD nmodes m _ z _ hus hrows j,
    fun f_s mfInit hfs hmf => ?_⟩
  rw [dot_length_eq (ModalForces_compute_length _ _ _ _ hmf) hz,
    dot_length_eq hfs (ModalDisplacements_compute_length nmodes m _ z _ hus hrows)]
  have h1 : ∀ i ∈ Finset.range nmodes,
      (ModalForces_compute nmodes mode_shape f_s mfInit).getD i 0 * z.getD i 0
        = dot (mode_shape.getD i []) f_s * z.getD i 0 := by
    intro i hi
    rw [ModalForces_compute_getD _ _ _ _ hmf i,
      if_pos (Finset.mem_range.mp hi)]
  have h2 : ∀ j ∈ Finset.range m,
      f_s.getD j 0 *
        (ModalDisplacements_compute nmodes mode_shape z usInit).getD j 0
        = f_s.getD j 0 * ∑ i in Finset.range nmodes,
            (mode_shape.getD i []).getD j 0 * z.getD i 0 := by
    intro j hj
    rw [ModalDisplacements_compute_getD nmodes m _ z _ hus hrows j]
  rw [Finset.sum_congr rfl h1, Finset.sum_congr rfl h2]
  exact sum_swap_core nmodes m mode_shape f_s z hrows hfs

/-- Witness for C7: the transpose identity at mode_shape [[1,2]],
f_s = [5,7], z = [3]. -/
theorem C7_witness :
    dot (ModalForces_compute 1 [[1, 2]] [5, 7] [0]) [3]
      = dot [5, 7] (ModalDisplacements_compute 1 [[1, 2]] [3] [0, 0]) := by
  refine (C7_displacement_reconstruction 1 2 [[1, 2]] [3] [0, 0] ?_ rfl rfl).2.2
    [5, 7] [0] rfl rfl
  intro i hi
  interval_cases i
  rfl

/-- C8: the modal solver jacvec products implement the exact partial
derivatives of z = mf / k: the forward mode adds d(mf)/k - mf/k^2 * d(k)
to the z tangent, the reverse mode adds d(z)/k to the mf adjoint and
-mf/k^2 * d(z) to the k adjoint. -/
theorem C8_solver_jvp_rules (n : Nat) (k mf dmf dk dz0 oz omf0 ok0 : List ℚ)
    (hk : k.length = n) (hmf : mf.length = n) (hdmf : dmf.length = n)
    (hdk : dk.length = n) (hdz : dz0.length = n) (hoz : oz.length = n)
    (homf : omf0.length = n) (hok : ok0.length = n)
    (hknz : ∀ i, i < n → k.getD i 0 ≠ 0) :
    (∀ i, i < n →
      ((ModalSolver_jvp_fwd k mf (some dmf) (some dk)
          (some dz0)).getD []).getD i 0
        = dz0.getD i 0 + dmf.getD i 0 / k.getD i 0
          - mf.getD i 0 / (k.getD i 0) ^ 2 * dk.getD i 0) ∧
    (∀ i, i < n →
      (((ModalSolver_jvp_rev k mf (some omf0) (some ok0)
          (some oz)).1).getD []).getD i 0
        = omf0.getD i 0 + oz.getD i 0 / k.getD i 0) ∧
    (∀ i, i < n →
      (((ModalSolver_jvp_rev k mf (some omf0) (some ok0)
          (some oz)).2).getD []).getD i 0
        = ok0.getD i 0 - mf.getD i 0 / (k.getD i 0) ^ 2 * oz.getD i 0) := by
  refine ⟨fun i hi => ?_, fun i hi => ?_, fun i hi => ?_⟩
  · rw [ModalSolver_jvp_fwd_getD n k mf dmf dk dz0 hk hmf hdmf hdk hdz i]
    ring
  · rw [ModalSolver_jvp_rev_fst_getD n k mf omf0 ok0 oz hk homf hoz i]
  · rw [ModalSolver_jvp_rev_snd_getD n k mf omf0 ok0 oz hk hmf hok hoz i]
    ring

/-- Witness for C8 at k = [2], mf = [3], tangent seeds [5] and [7] on a
z tangent of [11], adjoint seeds [17], [19] on a z adjoint of [13]. -/
theorem C8_witness :
    ((ModalSolver_jvp_fwd [2] [3] (some [5]) (some [7])
        (some [11])).getD []).getD 0 0 = 33 / 4 ∧
    (((ModalSolver_jvp_rev [2] [3] (some [17]) (some [19])
        (some [13])).1).getD []).getD 0 0 = 47 / 2 ∧
    (((ModalSolver_jvp_rev [2] [3] (some [17]) (some [19])
        (some [13])).2).getD []).getD 0 0 = 37 / 4 := by
  have h := C8_solver_jvp_rules 1 [2] [3] [5] [7] [11] [13] [17] [19]
    rfl rfl rfl rfl rfl rfl rfl rfl
    (by intro i hi; interval_cases i; norm_num)
  refine ⟨?_, ?_, ?_⟩
  · rw [h.1 0 (by omega)]; norm_num
  · rw [h.2.1 0 (by omega)]; norm_num
  · rw [h.2.2 0 (by omega)]; norm_num

/-- C9: every basis produced by ModalDecomp.compute has modal_mass fixed
at 1.0 for every mode, for every design-variable input and every
eigensolver result: the constant is never recomputed. -/
theorem C9_modal_mass_unity (dv_struct : List ℚ) (nmodes ndof : Nat)
    (xpts : List ℚ) (extract : Nat → ℚ × ℤ × List ℚ) :
    (ModalDecomp_compute dv_struct nmodes ndof xpts extract).modal_mass
      = List.replicate nmodes 1 := by
  show (List.range nmodes).map (fun _ => (1 : ℚ)) = List.replicate nmodes 1
  rw [List.map_const', List.length_range]

/-- C10: with mode_shape and all-nonzero k fixed, the composed chain
project force, diagonal solve, reconstruct displacement is linear in f_s:
scaling f_s by a scalar scales every entry of u_s by that scalar. -/
theorem C10_chain_linearity (nmodes m : Nat) (mode_shape : List (List ℚ))
    (k f_s : List ℚ) (a : ℚ)
    (hrows : ∀ i, i < nmodes → (mode_shape.getD i []).length = m)
    (hk : k.length = nmodes) (hfs : f_s.length = m)
    (hknz : ∀ i, i < nmodes → k.getD i 0 ≠ 0) :
    ∀ j, j < m →
      (modalChain nmodes m mode_shape k (vscale f_s a)).getD j 0
        = a * (modalChain nmodes m mode_shape k f_s).getD j 0 := by
  intro j hj
  unfold modalChain
  simp only [ModalSolver_compute]
  rw [ModalDisplacements_compute_getD nmodes m _ _ _
      (List.length_replicate m 0) hrows j,
    ModalDisplacements_compute_getD nmodes m _ _ _
      (List.length_replicate m 0) hrows j,
    Finset.mul_sum]
  refine Finset.sum_congr rfl (fun i hi => ?_)
  have hi2 := Finset.mem_range.mp hi
  have hz : ∀ fs2 : List ℚ,
      (vdiv (ModalForces_compute nmodes mode_shape fs2
        (List.replicate nmodes 0)) k).getD i 0
      = (ModalForces_compute nmodes mode_shape fs2
          (List.replicate nmodes 0)).getD i 0 / k.getD i 0 := by
    intro fs2
    refine vdiv_getD _ _ ?_ i
    rw [ModalForces_compute_length _ _ _ _ (List.length_replicate nmodes 0), hk]
  rw [hz, hz,
    ModalForces_compute_getD _ _ _ _ (List.length_replicate nmodes 0) i,
    ModalForces_compute_getD _ _ _ _ (List.length_replicate nmodes 0) i,
    if_pos hi2, if_pos hi2, dot_vscale]
  ring

/-- Witness for C10 with mode_shape [[1,1]], k = [2], f_s = [1,3],
scale 5, at node entry 0. -/
theorem C10_witness :
    (modalChain 1 2 [[1, 1]] [2] (vscale [1, 3] 5)).getD 0 0
      = 5 * (modalChain 1 2 [[1, 1]] [2] [1, 3]).getD 0 0 := by
  refine C10_chain_linearity 1 2 [[1, 1]] [2] [1, 3] 5 ?_ rfl rfl ?_ 0 (by omega)
  · intro i hi
    interval_cases i
    rfl
  · intro i hi
    interval_cases i
    norm_num

/-- C2: ModalForces and ModalDisplacements never declare the nmodes
option (initialize declares only get_modal_sizes), so whenever both the
relevant output seed and input seed are present their jacvec methods hit
the undeclared-option key error before applying any update; ModalSolver,
which does declare nmodes, is unaffected. -/
theorem C2_nmodes_undeclared :
    optGetNat ModalForces_options nmodesKey = Except.error ⟨nmodesKey⟩ ∧
    optGetNat ModalDisplacements_options nmodesKey
      = Except.error ⟨nmodesKey⟩ ∧
    (∀ (ms : List (List ℚ)) (dfs dmf : List ℚ),
      ModalForces_jvp_fwd ModalForces_options ms (some dfs) (some dmf)
        = Except.error ⟨nmodesKey⟩) ∧
    (∀ (ms : List (List ℚ)) (dfs dmf : List ℚ),
      ModalForces_jvp_rev ModalForces_options ms (some dfs) (some dmf)
        = Except.error ⟨nmodesKey⟩) ∧
    (∀ (ms : List (List ℚ)) (dz dus : List ℚ),
      ModalDisplacements_jvp_fwd ModalDisplacements_options ms
        (some dz) (some dus) = Except.error ⟨nmodesKey⟩) ∧
    (∀ (ms : List (List ℚ)) (dz dus : List ℚ),
      ModalDisplacements_jvp_rev ModalDisplacements_options ms
        (some dz) (some dus) = Except.error ⟨nmodesKey⟩) ∧
    (∀ nmodes : Nat,
      optGetNat (ModalSolver_options nmodes) nmodesKey = Except.ok nmodes) :=
  ⟨rfl, rfl, fun _ _ _ => rfl, fun _ _ _ => rfl, fun _ _ _ => rfl,
    fun _ _ _ => rfl, fun _ => rfl⟩

/-- C1 counterexample: with the options ModalForces actually declares,
the forward jacvec of the force projection at mode_shape [[1]], input
seed [1] and output seed [0] raises the nmodes key error, so no forward
tangent output exists and the claimed dot-product identity fails for the
force projection operator as implemented. -/
theorem C1_counterexample :
    ModalForces_jvp_fwd ModalForces_options [[1]] (some [1]) (some [0])
      = Except.error ⟨nmodesKey⟩ := rfl

/-- C1 amended: the dot-product identity holds for ModalSolver as
implemented; for ModalForces and ModalDisplacements, whose jacvec methods
fail on the undeclared nmodes option, it holds once the options
dictionary declares nmodes (matching shapes assumed, k nonzero for the
solver): each call then succeeds and forward tangent paired with the
adjoint seed equals the tangent seed paired with the adjoint result. -/
theorem C1_amended_dot_product_identity :
    (∀ (n : Nat) (k mf dmf dk oz : List ℚ), k.length = n → mf.length = n →
      dmf.length = n → dk.length = n → oz.length = n →
      (∀ i, i < n → k.getD i 0 ≠ 0) →
      dot ((ModalSolver_jvp_fwd k mf (some dmf) (some dk)
          (some (List.replicate n 0))).getD []) oz
        = dot dmf (((ModalSolver_jvp_rev k mf (some (List.replicate n 0))
            (some (List.replicate n 0)) (some oz)).1).getD [])
          + dot dk (((ModalSolver_jvp_rev k mf (some (List.replicate n 0))
            (some (List.replicate n 0)) (some oz)).2).getD [])) ∧
    (∀ (n m : Nat) (ms : List (List ℚ)) (dfs omf : List ℚ),
      (∀ i, i < n → (ms.getD i []).length = m) →
      dfs.length = m → omf.length = n →
      ModalForces_jvp_fwd (ModalForces_options_fixed n) ms (some dfs)
          (some (List.replicate n 0))
        = Except.ok (some (jvpOut (ModalForces_jvp_fwd
            (ModalForces_options_fixed n) ms (some dfs)
            (some (List.replicate n 0))))) ∧
      ModalForces_jvp_rev (ModalForces_options_fixed n) ms
          (some (List.replicate m 0)) (some omf)
        = Except.ok (some (jvpOut (ModalForces_jvp_rev
            (ModalForces_options_fixed n) ms
            (some (List.replicate m 0)) (some omf)))) ∧
      dot (jvpOut (ModalForces_jvp_fwd (ModalForces_options_fixed n) ms
          (some dfs) (some (List.replicate n 0)))) omf
        = dot dfs (jvpOut (ModalForces_jvp_rev
            (ModalForces_options_fixed n) ms
            (some (List.replicate m 0)) (some omf)))) ∧
    (∀ (n m : Nat) (ms : List (List ℚ)) (dz ous : List ℚ),
      (∀ i, i < n → (ms.getD i []).length = m) →
      dz.length = n → ous.length = m →
      ModalDisplacements_jvp_fwd (ModalDisplacements_options_fixed n) ms
          (some dz) (some (List.replicate m 0))
        = Except.ok (some (jvpOut (ModalDisplacements_jvp_fwd
            (ModalDisplacements_options_fixed n) ms (some dz)
            (some (List.replicate m 0))))) ∧
      ModalDisplacements_jvp_rev (ModalDisplacements_options_fixed n) ms
          (some (List.replicate n 0)) (some ous)
        = Except.ok (some (jvpOut (ModalDisplacements_jvp_rev
            (ModalDisplacements_options_fixed n) ms
            (some (List.replicate n 0)) (some ous)))) ∧
      dot (jvpOut (ModalDisplacements_jvp_fwd
          (ModalDisplacements_options_fixed n) ms (some dz)
          (some (List.replicate m 0)))) ous
        = dot dz (jvpOut (ModalDisplacements_jvp_rev
            (ModalDisplacements_options_fixed n) ms
            (some (List.replicate n 0)) (some ous)))) :=
  ⟨fun n k mf dmf dk oz h1 h2 h3 h4 h5 _ =>
      solver_identity n k mf dmf dk oz h1 h2 h3 h4 h5,
    fun n m ms dfs omf hr hd ho =>
      ⟨rfl, rfl, forces_identity n m ms dfs omf hr hd ho⟩,
    fun n m ms dz ous hr hz ho =>
      ⟨rfl, rfl, disps_identity n m ms dz ous hr hz ho⟩⟩

/-- Witness for the amended C1 at one-mode, one-node data. -/
theorem C1_witness :
    dot ((ModalSolver_jvp_fwd [2] [3] (some [5]) (some [7])
        (some (List.replicate 1 0))).getD []) [11]
      = dot [5] (((ModalSolver_jvp_rev [2] [3] (some (List.replicate 1 0))
          (some (List.replicate 1 0)) (some [11])).1).getD [])
        + dot [7] (((ModalSolver_jvp_rev [2] [3] (some (List.replicate 1 0))
          (some (List.replicate 1 0)) (some [11])).2).getD []) ∧
    dot (jvpOut (ModalForces_jvp_fwd (ModalForces_options_fixed 1) [[2]]
        (some [3]) (some (List.replicate 1 0)))) [5]
      = dot [3] (jvpOut (ModalForces_jvp_rev (ModalForces_options_fixed 1)
          [[2]] (some (List.replicate 1 0)) (some [5]))) ∧
    dot (jvpOut (ModalDisplacements_jvp_fwd
        (ModalDisplacements_options_fixed 1) [[2]] (some [3])
        (some (List.replicate 1 0)))) [5]
      = dot [3] (jvpOut (ModalDisplacements_jvp_rev
          (ModalDisplacements_options_fixed 1) [[2]]
          (some (List.replicate 1 0)) (some [5]))) := by
  refine ⟨C1_amended_dot_product_identity.1 1 [2] [3] [5] [7] [11]
      rfl rfl rfl rfl rfl (by intro i hi; interval_cases i; norm_num),
    (C1_amended_dot_product_identity.2.1 1 1 [[2]] [3] [5]
      (by intro i hi; interval_cases i; rfl) rfl rfl).2.2,
    (C1_amended_dot_product_identity.2.2 1 1 [[2]] [3] [5]
      (by intro i hi; interval_cases i; rfl) rfl rfl).2.2⟩

/-- C3 counterexample: at k = [0], mf = [1] the solve does not fail: it
returns a length-1 result (the source performs the division with no
zero-check; no SingularModalStiffness error exists in the code). -/
theorem C3_counterexample : (ModalSolver_compute [0] [1]).length = 1 := rfl

/-- C3 amended: ModalSolver.compute performs no zero-check on k: for any
k, including vectors with zero entries, it returns the elementwise
quotient vector of full length (NumPy emits inf or nan with a runtime
warning at the zero entries rather than raising), with the exact quotient
at every nonzero entry of k. -/
theorem C3_amended_no_failure (n : Nat) (k mf : List ℚ)
    (hk : k.length = n) (hmf : mf.length = n) :
    (ModalSolver_compute k mf).length = n ∧
    (∀ i, i < n → k.getD i 0 ≠ 0 →
      (ModalSolver_compute k mf).getD i 0 = mf.getD i 0 / k.getD i 0) := by
  refine ⟨by rw [ModalSolver_compute, vdiv, List.length_zipWith]; omega,
    fun i hi hki => vdiv_getD mf k (by omega) i⟩

/-- Witness for the amended C3: with k = [0, 2], mf = [1, 6] the solve
returns a length-2 result whose entry at the nonzero stiffness is 3. -/
theorem C3_witness :
    (ModalSolver_compute [0, 2] [1, 6]).length = 2 ∧
    (ModalSolver_compute [0, 2] [1, 6]).getD 1 0 = 3 := by
  have h := C3_amended_no_failure 2 [0, 2] [1, 6] rfl rfl
  refine ⟨h.1, ?_⟩
  rw [h.2 1 (by omega) (by norm_num)]
  norm_num

/-- C4 counterexample: with a mock eigensolver whose extraction reports
error indicator 1 (a failed eigenpair), ModalDecomp.compute still returns
the assembled basis (modal stiffness [2]) instead of surfacing an
EigensolveFailure: the error indicator of line 136 is never inspected. -/
theorem C4_counterexample :
    (extractA 0).2.1 = 1 ∧
    (ModalDecomp_compute [] 1 3 [0, 0, 0] extractA).modal_stiffness
      = [2] := ⟨rfl, rfl⟩

/-- C4 amended: ModalDecomp.compute never raises an EigensolveFailure
itself: it ignores the per-mode error indicator returned by
extractEigenvector and returns the assembled basis regardless; its output
depends only on the extracted eigenvalues and eigenvectors, so any
non-convergence surfaces only if the external eigensolver call itself
raises. -/
theorem C4_amended_err_ignored (dv_struct : List ℚ) (nmodes ndof : Nat)
    (xpts : List ℚ) (e1 e2 : Nat → ℚ × ℤ × List ℚ)
    (h : ∀ i, (e1 i).1 = (e2 i).1 ∧ (e1 i).2.2 = (e2 i).2.2) :
    ModalDecomp_compute dv_struct nmodes ndof xpts e1
      = ModalDecomp_compute dv_struct nmodes ndof xpts e2 := by
  simp only [ModalDecomp_compute, ModalBasis.mk.injEq, true_and, and_true,
    eq_self_iff_true]
  exact ⟨List.map_congr_left (fun i _ => by rw [(h i).2]),
    List.map_congr_left (fun i _ => by rw [(h i).1])⟩

/-- Witness for the amended C4: two extractions agreeing on eigenvalues
and eigenvectors but with error indicators 1 and 0 give identical bases. -/
theorem C4_witness :
    ModalDecomp_compute [] 1 3 [0, 0, 0] extractA
      = ModalDecomp_compute [] 1 3 [0, 0, 0] extractB :=
  C4_amended_err_ignored [] 1 3 [0, 0, 0] extractA extractB
    (fun _ => ⟨rfl, rfl⟩)

end Omfsi
